import Mathlib

/-!
Verification of the parrot-shell terminal multiplexer core
(src/terminal.c, src/terminal.h, src/main.c) against its
natural-language specification.

The C code is shallowly embedded: each C function relevant to the
claims is translated into an executable Lean definition operating on
records mirroring the C structs.  OS interactions (time, chdir, fork,
pipe reads, waitpid, system) are supplied by an oracle record `OSEnv`,
and externally visible OS side effects are collected in an `Event`
trace.
-/

namespace Parrot

/-! ### Constants from terminal.h -/

def MAX_CMD_INPUT : Nat := 512
def MAX_CMD_HISTORY : Nat := 256
def COMMAND_QUEUE_SIZE : Nat := 10
def PATH_MAX : Nat := 4096

def HISTORY_TYPE_NORMAL : Nat := 0
def HISTORY_TYPE_COMMAND : Nat := 1
def HISTORY_TYPE_RAW : Nat := 2

def CMD_STATE_READY : Nat := 0
def CMD_STATE_RUNNING : Nat := 1

def QUEUE_NORMAL : Nat := 0
def QUEUE_FULL : Nat := 1

/-! ### C string operations

strncpy into an n+1 byte buffer with a forced NUL terminator keeps the
first n characters; strncmp(a, b, n) == 0 compares the first n
characters (stopping at a NUL, which for distinct lengths below n makes
the comparison unequal, exactly as take-based list equality does when
neither string contains a NUL); a `cmd + k` pointer is the suffix. -/

def cstrCopy (n : Nat) (s : String) : String :=
  String.mk (s.data.take n)

def strncmpEq (a b : String) (n : Nat) : Bool :=
  a.data.take n == b.data.take n

def strSuffixFrom (s : String) (n : Nat) : String :=
  String.mk (s.data.drop n)

/-! ### Command queue (struct CommandQueue and its operations)

The C struct holds a fixed array `commands[10][512]`, indices `head`,
`tail`, a `count` and a derived `state`.  We model the array as a list
of 10 strings; `strncpy(dst, cmd, MAX_CMD_INPUT - 1)` followed by a
forced NUL terminator stores exactly the first 511 characters. -/

structure CommandQueue where
  commands : List String
  count : Nat
  head : Nat
  tail : Nat
  state : Nat
deriving DecidableEq

def init_command_queue : CommandQueue :=
  { commands := List.replicate COMMAND_QUEUE_SIZE ""
    count := 0, head := 0, tail := 0, state := QUEUE_NORMAL }

def update_queue_state (q : CommandQueue) : CommandQueue :=
  { q with state := if q.count ≥ COMMAND_QUEUE_SIZE then QUEUE_FULL else QUEUE_NORMAL }

def is_queue_full (q : CommandQueue) : Bool :=
  q.count ≥ COMMAND_QUEUE_SIZE

def is_queue_empty (q : CommandQueue) : Bool :=
  q.count == 0

/-- Translation of `add_to_queue`: returns the C function's int result
(1 success, 0 failure) paired with the updated queue. -/
def add_to_queue (q : CommandQueue) (cmd : String) : Nat × CommandQueue :=
  if is_queue_full q then
    (0, { q with state := QUEUE_FULL })
  else
    let q := { q with commands := q.commands.set q.tail (cstrCopy (MAX_CMD_INPUT - 1) cmd) }
    let q := { q with tail := (q.tail + 1) % COMMAND_QUEUE_SIZE }
    let q := { q with count := q.count + 1 }
    (1, update_queue_state q)

/-- Translation of `get_from_queue`: returns `none` when the queue is
empty, else the retrieved command (the C function copies at most 511
characters into the caller's buffer) and the updated queue. -/
def get_from_queue (q : CommandQueue) : Option String × CommandQueue :=
  if is_queue_empty q then
    (none, q)
  else
    let cmd := cstrCopy (MAX_CMD_INPUT - 1) (q.commands.getD q.head "")
    let q := { q with head := (q.head + 1) % COMMAND_QUEUE_SIZE }
    let q := { q with count := q.count - 1 }
    (some cmd, update_queue_state q)

/-! ### Queue operation sequences (for the queue invariant) -/

inductive QueueOp where
  | enq (cmd : String)
  | deq
deriving DecidableEq

def applyQueueOp (q : CommandQueue) : QueueOp → CommandQueue
  | QueueOp.enq cmd => (add_to_queue q cmd).2
  | QueueOp.deq => (get_from_queue q).2

def runQueueOps (q : CommandQueue) (ops : List QueueOp) : CommandQueue :=
  ops.foldl applyQueueOp q

/-! ### History buffer (struct HistoryBuffer and add_history_line)

The backing storage is a growable array in C (capacity doubling); the
entry sequence it holds is modelled as a list of (text, line type,
timestamp) records.  `add_history_line` consults the global
`line_break_enabled`: when it is off, embedded newline characters are
replaced by spaces before storage. -/

structure HistEntry where
  text : String
  line_type : Nat
  timestamp : Nat
deriving DecidableEq

def collapseNewlines (s : String) : String :=
  String.mk (s.data.map (fun c => if c = '\n' then ' ' else c))

def add_history_line (line_break_enabled : Bool) (now : Nat)
    (buf : List HistEntry) (text : String) (line_type : Nat) : List HistEntry :=
  let stored := if line_break_enabled then text else collapseNewlines text
  buf ++ [{ text := stored, line_type := line_type, timestamp := now }]

/-! ### Input state (struct InputState and add_to_cmd_history) -/

structure InputState where
  input : String
  cursor_pos : Nat
  input_len : Nat
  display_start : Nat
  cmd_history : List String
  cmd_history_pos : Int
  is_locked : Bool
deriving DecidableEq

def init_input_state : InputState :=
  { input := "", cursor_pos := 0, input_len := 0, display_start := 0
    cmd_history := [], cmd_history_pos := -1, is_locked := false }

def add_to_cmd_history (inp : InputState) (cmd : String) : InputState :=
  let h := if inp.cmd_history.length ≥ MAX_CMD_HISTORY
           then inp.cmd_history.drop 1 else inp.cmd_history
  let h := h ++ [cmd]
  { inp with cmd_history := h, cmd_history_pos := (h.length : Int) }

/-! ### Terminal (struct Terminal, engine-relevant fields)

Display geometry fields (pane position and ncurses window handle) are
excluded: no embedded function reads or writes them. -/

structure Terminal where
  history : List HistEntry
  input : InputState
  id : Nat
  split_with : Int
  split_direction : Nat
  current_directory : String
  cmd_queue : CommandQueue
  current_process : Nat
  cmd_state : Nat
deriving DecidableEq

/-! ### OS oracle and effect trace

All interactions of execute_command with the operating system are
mediated by this record: clock and strftime output, the HOME variable,
chdir outcomes and the cwd reported by getcwd afterwards, strerror
texts, pipe/fork availability, the chunks successive read() calls
deliver from the output pipe, the waitpid status, and the int returned
by system() for interactive commands. -/

structure OSEnv where
  line_break_enabled : Bool
  now : Nat
  timeStr : String
  home : Option String
  chdirOk : String → Bool
  cwdAfter : String → String
  errnoStr : String → String
  pipeErr : String
  forkErr : String
  pipeOk : Bool
  forkOk : Bool
  childPid : Nat
  readChunks : String → List String
  waitStatus : String → Nat
  systemRet : String → Int

inductive Event where
  | sigint (pid : Nat)
  | chdirCall (path : String)
  | spawnShell (cmd : String)
  | systemCall (cmd : String)
  | stateSet (s : Nat)
deriving DecidableEq

/-! ### Wait-status decoding (sys/wait.h macros used by the source) -/

def wTermSig (s : Nat) : Nat := s % 128

def wIfExited (s : Nat) : Bool := s % 128 == 0

def wExitStatus (s : Nat) : Nat := (s / 256) % 256

def wIfSignaled (s : Nat) : Bool := decide (1 ≤ s % 128 ∧ s % 128 ≤ 126)

/-! ### strip_escape_codes -/

def stripEscAux : List Char → Bool → List Char
  | [], _ => []
  | c :: rest, inEsc =>
    if c = '\x1b' then stripEscAux rest true
    else if inEsc then
      (if c = 'm' then stripEscAux rest false else stripEscAux rest true)
    else c :: stripEscAux rest false

def strip_escape_codes (s : String) : String :=
  String.mk (stripEscAux s.data false)

/-! ### Output-pipe line splitting

The parent reads chunks of at most 1023 bytes and tokenises each chunk
with strtok(buffer, "\n"), which skips empty tokens; each token is
copied (strncpy, 1023 chars) into a scratch buffer, stripped of escape
codes, and appended to the history. -/

/-- Split a character list at newline characters, keeping empty
pieces (the analogue of String.splitOn "\n" on the underlying list). -/
def splitNl : List Char → List (List Char)
  | [] => [[]]
  | c :: rest =>
    match splitNl rest with
    | [] => [[]]
    | piece :: pieces =>
      if c = '\n' then [] :: piece :: pieces
      else (c :: piece) :: pieces

/-- strtok(buffer, "\n") in a loop yields exactly the non-empty
pieces between newline runs. -/
def strtokNewlines (s : String) : List String :=
  ((splitNl s.data).map String.mk).filter (fun l => l != "")

def chunkOutputLines (chunks : List String) : List String :=
  (chunks.map (fun c => (strtokNewlines c).map
    (fun l => strip_escape_codes (cstrCopy 1023 l)))).flatten

/-! ### Execution engine helpers -/

def is_command_running (t : Terminal) : Bool :=
  t.cmd_state == CMD_STATE_RUNNING

/-- Translation of `stop_current_command`, returning the OS events it
emits (the SIGINT delivery) next to the updated terminal. -/
def stop_current_command (env : OSEnv) (t : Terminal) : Terminal × List Event :=
  if t.cmd_state = CMD_STATE_RUNNING ∧ t.current_process > 0 then
    ({ t with
        history := add_history_line env.line_break_enabled env.now t.history
          "Command interrupted (SIGINT sent)" HISTORY_TYPE_NORMAL
        cmd_state := CMD_STATE_READY
        current_process := 0 },
     [Event.sigint t.current_process, Event.stateSet CMD_STATE_READY])
  else
    ({ t with
        history := add_history_line env.line_break_enabled env.now t.history
          "No command is currently running" HISTORY_TYPE_NORMAL }, [])

/-- Translation of `add_command_to_queue` (active-terminal wrapper over
`add_to_queue` with the success / queue-full logging and lock flag). -/
def add_command_to_queue (env : OSEnv) (cmd : String) (t : Terminal) : Terminal :=
  let (r, q) := add_to_queue t.cmd_queue cmd
  if r = 1 then
    { t with
        cmd_queue := q
        history := add_history_line env.line_break_enabled env.now t.history
          ("Command added to queue. Queue size: " ++ toString q.count ++ "/" ++
            toString COMMAND_QUEUE_SIZE) HISTORY_TYPE_NORMAL }
  else
    { t with
        cmd_queue := q
        history := add_history_line env.line_break_enabled env.now t.history
          "Command queue is full! Maximum 10 commands allowed." HISTORY_TYPE_RAW
        input := { t.input with is_locked := true } }

def manualText : List String :=
  ["Parrot Terminal Usage:",
   "======================",
   "Shift+T: Create new terminal",
   "Shift+W: Close current terminal",
   "Alt+1-9: Switch to terminal 1-9",
   "Alt+/-: Switch to next/previous terminal",
   "Alt+Arrows: Switch between split panes",
   "Arrow Keys: Scroll terminal history",
   "Shift+Up/Down: Navigate command history",
   "Type 'stop' to interrupt running command",
   "Type 'exit' to quit",
   "Note: Commands queue automatically when another is running",
   "Queue size: 10 commands max"]

def appendHistoryLines (env : OSEnv) (buf : List HistEntry)
    (ls : List String) (line_type : Nat) : List HistEntry :=
  ls.foldl (fun b l => add_history_line env.line_break_enabled env.now b l line_type) buf

/-- Conditional recording into the command history: skipped when the
command textually equals the newest history entry. -/
def recordCmdHistory (t : Terminal) (cmd : String) : Terminal :=
  if t.input.cmd_history.length = 0 ∨ cmd ≠ t.input.cmd_history.getLastD "" then
    { t with input := add_to_cmd_history t.input cmd }
  else t

/-! ### cd path resolution

The cd branch copies the argument into a PATH_MAX buffer, skips
leading spaces (pointer `start`), trims trailing spaces and newlines
in place (the `end > start` guard never empties a nonempty string
below one character), resolves `~` and `~/...` against HOME by
overwriting the whole buffer, and finally calls chdir on the buffer —
which in the plain-path case still carries the leading spaces. -/

def rtrimKeepOne (cs : List Char) : List Char :=
  let dropped := cs.reverse.dropWhile (fun c => c == ' ' || c == '\n')
  if dropped.isEmpty then cs.take 1 else dropped.reverse

def cdResolve (home : Option String) (dirArg : String) : String :=
  let s0 := cstrCopy (PATH_MAX - 1) dirArg
  let lead := s0.data.takeWhile (fun c => c == ' ')
  let core := rtrimKeepOne (s0.data.dropWhile (fun c => c == ' '))
  if String.mk core = "~" then
    match home with
    | some h => h
    | none => String.mk (lead ++ core)
  else if strncmpEq (String.mk core) "~/" 2 then
    match home with
    | some h => cstrCopy (PATH_MAX - 1) (h ++ String.mk (core.drop 1))
    | none => String.mk (lead ++ core)
  else String.mk (lead ++ core)

/-- The `cd <path>` branch of execute_command. -/
def execCd (env : OSEnv) (cmd : String) (t : Terminal) : Terminal × List Event :=
  let clean := cdResolve env.home (strSuffixFrom cmd 3)
  if env.chdirOk clean then
    ({ t with current_directory := env.cwdAfter clean }, [Event.chdirCall clean])
  else
    ({ t with
        history := add_history_line env.line_break_enabled env.now t.history
          (cstrCopy 127 ("cd: " ++ clean ++ ": " ++ env.errnoStr clean))
          HISTORY_TYPE_NORMAL }, [Event.chdirCall clean])

/-- The bare `cd` branch of execute_command. -/
def execCdHome (env : OSEnv) (t : Terminal) : Terminal × List Event :=
  match env.home with
  | none => (t, [])
  | some h =>
    if env.chdirOk h then
      ({ t with current_directory := env.cwdAfter h }, [Event.chdirCall h])
    else
      ({ t with
          history := add_history_line env.line_break_enabled env.now t.history
            (cstrCopy 127 ("cd: " ++ h ++ ": " ++ env.errnoStr h))
            HISTORY_TYPE_NORMAL }, [Event.chdirCall h])

/-! ### Interactive command classification and execution -/

def interactiveCommands : List String :=
  ["vim", "nvim", "nano", "ranger", "parrot", "htop", "top", "sudo", "ssh",
   "man", "less", "more"]

def isInteractive (cmd : String) : Bool :=
  interactiveCommands.any (fun ic => cmd == ic || strncmpEq cmd ic ic.length)

/-- The interactive branch: display suspension, a call to system(),
and a log entry carrying system()'s raw return value when nonzero. -/
def execInteractive (env : OSEnv) (cmd : String) (t : Terminal) : Terminal × List Event :=
  let t := { t with
    history := appendHistoryLines env t.history
      ["Starting interactive application...",
       "Note: Use Ctrl+Z to suspend and 'fg' to return"] HISTORY_TYPE_NORMAL }
  let result := env.systemRet cmd
  let t := if result ≠ 0 then
      { t with
        history :=
          add_history_line env.line_break_enabled env.now t.history
            ("Command returned with exit code: " ++ toString result) HISTORY_TYPE_NORMAL }
    else t
  ({ t with
      history := add_history_line env.line_break_enabled env.now t.history
        "Returned to Parrot Terminal" HISTORY_TYPE_NORMAL },
   [Event.systemCall cmd])

/-- The parent half of the non-interactive fork: mark Running and
record the child pid, drain the pipe appending each tokenised and
escape-stripped line, wait, reset to Ready clearing the pid, and log a
nonzero exit status or a terminating signal. -/
def nonInteractiveRun (env : OSEnv) (cmd : String) (t : Terminal) : Terminal :=
  let t := { t with cmd_state := CMD_STATE_RUNNING, current_process := env.childPid }
  let t := { t with
    history := appendHistoryLines env t.history
      (chunkOutputLines (env.readChunks cmd)) HISTORY_TYPE_NORMAL }
  let t := { t with cmd_state := CMD_STATE_READY, current_process := 0 }
  let s := env.waitStatus cmd
  if wIfExited s && wExitStatus s != 0 then
    { t with
      history :=
        add_history_line env.line_break_enabled env.now t.history
          ("Command exited with status: " ++ toString (wExitStatus s)) HISTORY_TYPE_NORMAL }
  else if wIfSignaled s then
    { t with
      history :=
        add_history_line env.line_break_enabled env.now t.history
          ("Command terminated by signal: " ++ toString (wTermSig s)) HISTORY_TYPE_NORMAL }
  else t

/-! ### execute_command and process_command_queue

execute_command ends its non-interactive path by calling
process_command_queue, which dequeues one pending command and calls
execute_command again.  The recursion is bounded in the model by a
fuel argument; every recursive call happens right after a dequeue, so
the queue count bounds the needed fuel.  The queue-drain body of
process_command_queue is inlined in the recursive definition and
restated as `process_command_queue_fuel` below (definitionally equal
on every input). -/

def executeCommandFuel : Nat → OSEnv → String → Terminal → Terminal × List Event
  | 0, _, _, t => (t, [])
  | Nat.succ fuel, env, cmd, t =>
    if cmd.length = 0 then (t, [])
    else if cmd = "stop" then stop_current_command env t
    else if cmd = "manual" then
      ({ t with history := appendHistoryLines env t.history manualText HISTORY_TYPE_RAW }, [])
    else if is_command_running t then
      (add_command_to_queue env cmd t, [])
    else
      let t := recordCmdHistory t cmd
      if strncmpEq cmd "cd " 3 then execCd env cmd t
      else if cmd = "cd" then execCdHome env t
      else
        let t := { t with
          history := add_history_line env.line_break_enabled env.now t.history
            (cstrCopy 511 (env.timeStr ++ " " ++ cmd)) HISTORY_TYPE_COMMAND }
        if isInteractive cmd then execInteractive env cmd t
        else if ¬ env.pipeOk then
          ({ t with
              history :=
                add_history_line env.line_break_enabled env.now t.history
                  ("Failed to create pipe: " ++ env.pipeErr) HISTORY_TYPE_NORMAL }, [])
        else if ¬ env.forkOk then
          ({ t with
              history :=
                add_history_line env.line_break_enabled env.now t.history
                  ("Failed to fork process: " ++ env.forkErr) HISTORY_TYPE_NORMAL }, [])
        else
          let t1 := nonInteractiveRun env cmd t
          let (t2, evs) :=
            if !is_command_running t1 && !is_queue_empty t1.cmd_queue then
              match get_from_queue t1.cmd_queue with
              | (some next, q) =>
                let t' := { t1 with cmd_queue := q }
                let t' := if q.state = QUEUE_NORMAL then
                    { t' with input := { t'.input with is_locked := false } }
                  else t'
                executeCommandFuel fuel env next t'
              | (none, _) => (t1, [])
            else (t1, [])
          (t2, [Event.spawnShell cmd, Event.stateSet CMD_STATE_RUNNING,
                Event.stateSet CMD_STATE_READY] ++ evs)

/-- Translation of `process_command_queue`, parameterised by the fuel
handed to the execute_command it re-enters. -/
def process_command_queue_fuel (fuel : Nat) (env : OSEnv) (t : Terminal) :
    Terminal × List Event :=
  if !is_command_running t && !is_queue_empty t.cmd_queue then
    match get_from_queue t.cmd_queue with
    | (some next, q) =>
      let t' := { t with cmd_queue := q }
      let t' := if q.state = QUEUE_NORMAL then
          { t' with input := { t'.input with is_locked := false } }
        else t'
      executeCommandFuel fuel env next t'
    | (none, _) => (t, [])
  else (t, [])

/-! ## Theorems -/

/-! ### C1: the queue count/state invariant -/

def queueInv (q : CommandQueue) : Prop :=
  q.count ≤ COMMAND_QUEUE_SIZE ∧
    (q.state = QUEUE_FULL ↔ q.count = COMMAND_QUEUE_SIZE)

lemma queueInv_init : queueInv init_command_queue := by
  constructor <;> simp [init_command_queue, QUEUE_NORMAL, QUEUE_FULL, COMMAND_QUEUE_SIZE]

lemma queueInv_step (q : CommandQueue) (op : QueueOp) (h : queueInv q) :
    queueInv (applyQueueOp q op) := by
  obtain ⟨h1, h2⟩ := h
  simp only [COMMAND_QUEUE_SIZE, QUEUE_FULL, QUEUE_NORMAL] at h1 h2
  cases op with
  | enq cmd =>
    by_cases hf : 10 ≤ q.count
    · have hc : q.count = 10 := le_antisymm h1 hf
      simp [applyQueueOp, add_to_queue, is_queue_full, ge_iff_le, queueInv,
        COMMAND_QUEUE_SIZE, QUEUE_FULL, hf, hc]
    · simp only [applyQueueOp, add_to_queue, is_queue_full, ge_iff_le,
        update_queue_state, queueInv, COMMAND_QUEUE_SIZE, QUEUE_FULL, QUEUE_NORMAL]
      rw [if_neg (by simpa using hf)]
      refine ⟨by simp; omega, ?_⟩
      split_ifs with h10 <;> simp <;> omega
  | deq =>
    by_cases he : q.count = 0
    · simp [applyQueueOp, get_from_queue, is_queue_empty, queueInv,
        COMMAND_QUEUE_SIZE, QUEUE_FULL, QUEUE_NORMAL, he]
      omega
    · simp only [applyQueueOp, get_from_queue, is_queue_empty,
        update_queue_state, queueInv, COMMAND_QUEUE_SIZE, QUEUE_FULL, QUEUE_NORMAL]
      rw [if_neg (by simpa using he)]
      refine ⟨by simp; omega, ?_⟩
      split_ifs with h10 <;> simp <;> omega

lemma queueInv_run (ops : List QueueOp) (q : CommandQueue) (h : queueInv q) :
    queueInv (runQueueOps q ops) := by
  induction ops generalizing q with
  | nil => exact h
  | cons op ops ih => exact ih _ (queueInv_step q op h)

/-- Claim C1: for every sequence of enqueue and dequeue operations applied
to an initialized Command Queue (capacity 10), the count stays within
[0,10] and the derived state equals Full if and only if count equals 10.
(Every intermediate state is `runQueueOps` applied to a prefix, so the
universal quantification over operation lists covers all reachable
states.) -/
theorem C1_queue_invariant (ops : List QueueOp) :
    0 ≤ (runQueueOps init_command_queue ops).count ∧
    (runQueueOps init_command_queue ops).count ≤ COMMAND_QUEUE_SIZE ∧
    ((runQueueOps init_command_queue ops).state = QUEUE_FULL ↔
      (runQueueOps init_command_queue ops).count = COMMAND_QUEUE_SIZE) :=
  ⟨Nat.zero_le _, (queueInv_run ops init_command_queue queueInv_init).1,
   (queueInv_run ops init_command_queue queueInv_init).2⟩

/-! ### C9: line-break collapsing in the History Log -/

/-- Claim C9: history-log append with the preserve-line-breaks setting
off stores the text with every embedded newline replaced by a space
(classification and everything else unaffected); with the setting on
the text is stored verbatim; in particular a text containing "a\nb" is
stored as "a b". -/
theorem C9_line_break_collapsing (now : Nat) (buf : List HistEntry)
    (text : String) (ty : Nat) :
    add_history_line false now buf text ty =
      buf ++ [{ text := String.mk (text.data.map (fun c => if c = '\n' then ' ' else c)),
                line_type := ty, timestamp := now }] ∧
    add_history_line true now buf text ty =
      buf ++ [{ text := text, line_type := ty, timestamp := now }] ∧
    add_history_line false now buf "a\nb" ty =
      buf ++ [{ text := "a b", line_type := ty, timestamp := now }] := by
  refine ⟨rfl, rfl, ?_⟩
  have h : collapseNewlines "a\nb" = "a b" := by decide
  show buf ++ [{ text := collapseNewlines "a\nb", line_type := ty, timestamp := now }] = _
  rw [h]

/-! ### C10: enqueue/dequeue round trip and truncation -/

def queueWf (q : CommandQueue) : Prop :=
  q.commands.length = COMMAND_QUEUE_SIZE ∧ q.count ≤ COMMAND_QUEUE_SIZE ∧
  q.head < COMMAND_QUEUE_SIZE ∧ q.tail = (q.head + q.count) % COMMAND_QUEUE_SIZE

instance (q : CommandQueue) : Decidable (queueWf q) := by
  unfold queueWf; infer_instance

/-- The pending commands of a circular queue in FIFO order. -/
def queueEntries (q : CommandQueue) : List String :=
  (List.range q.count).map (fun i => q.commands.getD ((q.head + i) % COMMAND_QUEUE_SIZE) "")

def dequeueN : Nat → CommandQueue → CommandQueue
  | 0, q => q
  | n + 1, q => dequeueN n (get_from_queue q).2

lemma queueEntries_length (q : CommandQueue) : (queueEntries q).length = q.count := by
  simp [queueEntries]

lemma add_to_queue_entries (q : CommandQueue) (cmd : String) (hwf : queueWf q)
    (hlt : q.count < COMMAND_QUEUE_SIZE) :
    (add_to_queue q cmd).1 = 1 ∧ queueWf (add_to_queue q cmd).2 ∧
    queueEntries (add_to_queue q cmd).2 =
      queueEntries q ++ [cstrCopy (MAX_CMD_INPUT - 1) cmd] ∧
    (add_to_queue q cmd).2.commands.getD q.tail "" = cstrCopy (MAX_CMD_INPUT - 1) cmd := by
  obtain ⟨hlen, hcnt, hhead, htail⟩ := hwf
  simp only [COMMAND_QUEUE_SIZE] at hlen hcnt hhead htail hlt
  have hnf : is_queue_full q = false := by
    simp [is_queue_full, COMMAND_QUEUE_SIZE]; omega
  simp only [add_to_queue, hnf, Bool.false_eq_true, if_false, update_queue_state]
  have htl : q.tail < q.commands.length := by omega
  refine ⟨by trivial, ?_, ?_, ?_⟩
  · refine ⟨by simp [COMMAND_QUEUE_SIZE, hlen], by simp [COMMAND_QUEUE_SIZE]; omega,
      by simp [COMMAND_QUEUE_SIZE]; omega, ?_⟩
    simp only [COMMAND_QUEUE_SIZE]
    omega
  · simp only [queueEntries, COMMAND_QUEUE_SIZE]
    rw [List.range_succ, List.map_append]
    congr 1
    · apply List.map_congr_left
      intro i hi
      rw [List.mem_range] at hi
      have hne : q.tail ≠ (q.head + i) % 10 := by omega
      simp [List.getD_eq_getElem?_getD, List.getElem?_set_ne hne]
    · have : (q.head + q.count) % 10 = q.tail := htail.symm
      simp only [List.map_cons, List.map_nil, this]
      rw [List.getD_eq_getElem?_getD, List.getElem?_set_self htl]
      simp
  · have : q.tail < q.commands.length := htl
    rw [List.getD_eq_getElem?_getD, List.getElem?_set_self this]
    simp

lemma get_from_queue_entries (q : CommandQueue) (hwf : queueWf q)
    (hne : q.count ≠ 0) :
    (get_from_queue q).1 = some (cstrCopy (MAX_CMD_INPUT - 1) ((queueEntries q).getD 0 "")) ∧
    queueWf (get_from_queue q).2 ∧
    queueEntries (get_from_queue q).2 = (queueEntries q).drop 1 := by
  obtain ⟨hlen, hcnt, hhead, htail⟩ := hwf
  simp only [COMMAND_QUEUE_SIZE] at hlen hcnt hhead htail
  have hq : is_queue_empty q = false := by
    simp [is_queue_empty]; omega
  simp only [get_from_queue, hq, Bool.false_eq_true, if_false, update_queue_state]
  obtain ⟨k, hk⟩ : ∃ k, q.count = k + 1 := ⟨q.count - 1, by omega⟩
  refine ⟨?_, ?_, ?_⟩
  · have h0 : (queueEntries q).getD 0 "" = q.commands.getD q.head "" := by
      simp only [queueEntries, hk, COMMAND_QUEUE_SIZE, List.range_succ_eq_map]
      simp only [List.map_cons, List.getD_cons_zero]
      congr 1
      omega
    rw [h0]
  · refine ⟨by simp [COMMAND_QUEUE_SIZE, hlen], by simp [COMMAND_QUEUE_SIZE]; omega,
      by simp [COMMAND_QUEUE_SIZE]; omega, by simp [COMMAND_QUEUE_SIZE]; omega⟩
  · simp only [queueEntries, COMMAND_QUEUE_SIZE, hk]
    rw [List.range_succ_eq_map]
    simp only [List.map_cons, List.drop_succ_cons, List.drop_zero, Nat.add_eq]
    rw [List.map_map]
    apply List.map_congr_left
    intro i hi
    have : ((q.head + 1) % 10 + i) % 10 = (q.head + Nat.succ i) % 10 := by omega
    simp [Function.comp, this]

lemma dequeueN_entries (n : Nat) (q : CommandQueue) (hwf : queueWf q)
    (hn : n ≤ q.count) :
    queueWf (dequeueN n q) ∧ queueEntries (dequeueN n q) = (queueEntries q).drop n := by
  induction n generalizing q with
  | zero => exact ⟨hwf, by simp [dequeueN]⟩
  | succ m ih =>
    have hne : q.count ≠ 0 := by omega
    obtain ⟨-, hwf1, hent⟩ := get_from_queue_entries q hwf hne
    have hcnt1 : (get_from_queue q).2.count = q.count - 1 := by
      simp only [get_from_queue, update_queue_state] at *
      have hq : is_queue_empty q = false := by simp [is_queue_empty]; omega
      simp [hq]
    have hm : m ≤ (get_from_queue q).2.count := by omega
    obtain ⟨hwf2, hent2⟩ := ih (get_from_queue q).2 hwf1 hm
    refine ⟨hwf2, ?_⟩
    show queueEntries (dequeueN m (get_from_queue q).2) = _
    rw [hent2, hent, List.drop_drop]
    congr 1
    omega

/-- Claim C10: enqueueing a command string into a non-full well-formed
queue succeeds, and dequeueing it back in FIFO position (after the
entries already ahead of it) returns the identical string when it is
shorter than 512 characters; a string of 512 or more characters is
silently truncated by enqueue to its first 511 characters, both as
stored and as later dequeued. -/
theorem C10_enqueue_dequeue_roundtrip (q : CommandQueue) (cmd : String)
    (hwf : queueWf q) (hnf : q.count < COMMAND_QUEUE_SIZE) :
    (add_to_queue q cmd).1 = 1 ∧
    (cmd.data.length < MAX_CMD_INPUT →
      (get_from_queue (dequeueN q.count (add_to_queue q cmd).2)).1 = some cmd) ∧
    (MAX_CMD_INPUT ≤ cmd.data.length →
      (add_to_queue q cmd).2.commands.getD q.tail "" = cstrCopy (MAX_CMD_INPUT - 1) cmd ∧
      (get_from_queue (dequeueN q.count (add_to_queue q cmd).2)).1 =
        some (cstrCopy (MAX_CMD_INPUT - 1) cmd)) := by
  obtain ⟨hr, hwf1, hent1, hstored⟩ := add_to_queue_entries q cmd hwf hnf
  have hcnt1 : (add_to_queue q cmd).2.count = q.count + 1 := by
    have hnfb : is_queue_full q = false := by
      simp only [COMMAND_QUEUE_SIZE] at hnf
      simp [is_queue_full, COMMAND_QUEUE_SIZE]; omega
    simp [add_to_queue, hnfb, update_queue_state]
  have hle : q.count ≤ (add_to_queue q cmd).2.count := by omega
  obtain ⟨hwf2, hent2⟩ := dequeueN_entries q.count (add_to_queue q cmd).2 hwf1 hle
  have hlen1 : (queueEntries (add_to_queue q cmd).2).length = q.count + 1 := by
    rw [hent1]
    simp [queueEntries_length]
  have hcnt2 : (dequeueN q.count (add_to_queue q cmd).2).count = 1 := by
    have h := queueEntries_length (dequeueN q.count (add_to_queue q cmd).2)
    rw [hent2] at h
    rw [List.length_drop, hlen1] at h
    omega
  have hne2 : (dequeueN q.count (add_to_queue q cmd).2).count ≠ 0 := by omega
  obtain ⟨hget, -, -⟩ :=
    get_from_queue_entries (dequeueN q.count (add_to_queue q cmd).2) hwf2 hne2
  have hdropped : queueEntries (dequeueN q.count (add_to_queue q cmd).2) =
      [cstrCopy (MAX_CMD_INPUT - 1) cmd] := by
    rw [hent2, hent1, List.drop_append_of_le_length (by simp [queueEntries_length])]
    simp [queueEntries_length]
  rw [hdropped] at hget
  have hcc : cstrCopy (MAX_CMD_INPUT - 1) (cstrCopy (MAX_CMD_INPUT - 1) cmd) =
      cstrCopy (MAX_CMD_INPUT - 1) cmd := by
    simp [cstrCopy, List.take_take]
  simp only [List.getD_cons_zero] at hget
  refine ⟨hr, ?_, ?_⟩
  · intro hshort
    rw [hget, hcc]
    have : cstrCopy (MAX_CMD_INPUT - 1) cmd = cmd := by
      simp only [cstrCopy, MAX_CMD_INPUT] at *
      rw [List.take_of_length_le (by omega)]
    rw [this]
  · intro hlong
    exact ⟨hstored, by rw [hget, hcc]⟩

/-- Witness for C10 at a concrete input: the empty initial queue is
well-formed and non-full, and enqueue-then-dequeue of "ls" returns
"ls". -/
theorem C10_enqueue_dequeue_roundtrip_witness :
    queueWf init_command_queue ∧ init_command_queue.count < COMMAND_QUEUE_SIZE ∧
    (get_from_queue (dequeueN init_command_queue.count
      (add_to_queue init_command_queue "ls").2)).1 = some "ls" :=
  ⟨by decide, by decide,
    (C10_enqueue_dequeue_roundtrip init_command_queue "ls"
      (by decide) (by decide)).2.1 (by decide)⟩

/-! ### Concrete fixtures shared by witnesses and scenario theorems -/

def baseEnv : OSEnv :=
  { line_break_enabled := true, now := 0, timeStr := "[00:00:00]", home := some "/root"
    chdirOk := fun _ => false, cwdAfter := fun p => p
    errnoStr := fun _ => "No such file or directory"
    pipeErr := "Too many open files", forkErr := "Resource temporarily unavailable"
    pipeOk := true, forkOk := true, childPid := 1234
    readChunks := fun _ => [], waitStatus := fun _ => 0, systemRet := fun _ => 0 }

def baseTerm : Terminal :=
  { history := [], input := init_input_state, id := 0, split_with := -1
    split_direction := 0, current_directory := "/root"
    cmd_queue := init_command_queue, current_process := 0
    cmd_state := CMD_STATE_READY }

def runningTerm : Terminal :=
  { baseTerm with cmd_state := CMD_STATE_RUNNING, current_process := 77 }

/-- History-log append leaves newline-free text unchanged whatever the
line-break setting is. -/
lemma add_history_line_of_collapse_eq (b : Bool) (now : Nat) (buf : List HistEntry)
    (s : String) (ty : Nat) (h : collapseNewlines s = s) :
    add_history_line b now buf s ty =
      buf ++ [{ text := s, line_type := ty, timestamp := now }] := by
  cases b <;> simp [add_history_line, h]

/-! ### C2: submissions while a command is running -/

def elevenCmds : List String :=
  ["q01", "q02", "q03", "q04", "q05", "q06", "q07", "q08", "q09", "q10", "q11"]

def submitAll (env : OSEnv) (cmds : List String) (t : Terminal) : Terminal :=
  cmds.foldl (fun t c => (executeCommandFuel 1 env c t).1) t

/-- Claim C2: while the session status is Running, every submitted
non-empty command other than "stop" and "manual" goes through
add_command_to_queue; concretely, with a command running, submitting
eleven commands queues the first ten (each success logging the new
queue depth), and the eleventh enqueue fails, logs the queue-full
warning as a raw entry, and sets the input lock flag. -/
theorem C2_running_commands_enqueue :
    (∀ (fuel : Nat) (env : OSEnv) (cmd : String) (t : Terminal),
      t.cmd_state = CMD_STATE_RUNNING → cmd ≠ "" → cmd ≠ "stop" → cmd ≠ "manual" →
      executeCommandFuel (fuel + 1) env cmd t = (add_command_to_queue env cmd t, [])) ∧
    (queueEntries (submitAll baseEnv (elevenCmds.take 10) runningTerm).cmd_queue =
        elevenCmds.take 10 ∧
      (submitAll baseEnv (elevenCmds.take 10) runningTerm).cmd_queue.count = 10 ∧
      (submitAll baseEnv (elevenCmds.take 10) runningTerm).input.is_locked = false ∧
      (submitAll baseEnv (elevenCmds.take 10) runningTerm).history.map
          (fun e => (e.text, e.line_type)) =
        (List.range 10).map (fun i =>
          ("Command added to queue. Queue size: " ++ toString (i + 1) ++ "/10",
            HISTORY_TYPE_NORMAL)) ∧
      (submitAll baseEnv elevenCmds runningTerm).cmd_queue =
        (submitAll baseEnv (elevenCmds.take 10) runningTerm).cmd_queue ∧
      (submitAll baseEnv elevenCmds runningTerm).input.is_locked = true ∧
      (submitAll baseEnv elevenCmds runningTerm).history.map
          (fun e => (e.text, e.line_type)) =
        (submitAll baseEnv (elevenCmds.take 10) runningTerm).history.map
          (fun e => (e.text, e.line_type)) ++
          [("Command queue is full! Maximum 10 commands allowed.", HISTORY_TYPE_RAW)]) := by
  constructor
  · intro fuel env cmd t hrun hne hstop hman
    have hlen : ¬ cmd.length = 0 := by
      intro h
      apply hne
      have hd : cmd.data = [] := List.length_eq_zero.mp h
      cases cmd
      subst hd
      rfl
    have hrunb : is_command_running t = true := by
      simp [is_command_running, hrun]
    simp only [executeCommandFuel, if_neg hlen, if_neg hstop, if_neg hman, hrunb]
    simp
  · decide

/-- Witness for the universally quantified part of C2 at a concrete
running terminal and command. -/
theorem C2_running_commands_enqueue_witness :
    runningTerm.cmd_state = CMD_STATE_RUNNING ∧
    executeCommandFuel 1 baseEnv "ls" runningTerm =
      (add_command_to_queue baseEnv "ls" runningTerm, []) :=
  ⟨by decide,
    C2_running_commands_enqueue.1 0 baseEnv "ls" runningTerm (by decide)
      (by decide) (by decide) (by decide)⟩

/-! ### C4: the literal stop command -/

/-- Claim C4: submitting the literal command "stop" always routes to
stop_current_command (so it never enqueues and the queue is unchanged);
with status Running and a recorded process id it delivers SIGINT to
that id, logs a confirmation, resets status to Ready and clears the
recorded id; in every other state it logs "No command is currently
running" and leaves status, process id and queue unchanged. -/
theorem C4_stop_command :
    (∀ (fuel : Nat) (env : OSEnv) (t : Terminal),
      executeCommandFuel (fuel + 1) env "stop" t = stop_current_command env t) ∧
    (∀ (env : OSEnv) (t : Terminal),
      t.cmd_state = CMD_STATE_RUNNING → t.current_process > 0 →
      (stop_current_command env t).1.cmd_state = CMD_STATE_READY ∧
      (stop_current_command env t).1.current_process = 0 ∧
      (stop_current_command env t).1.cmd_queue = t.cmd_queue ∧
      (stop_current_command env t).1.history = t.history ++
        [{ text := "Command interrupted (SIGINT sent)",
           line_type := HISTORY_TYPE_NORMAL, timestamp := env.now }] ∧
      (stop_current_command env t).2 =
        [Event.sigint t.current_process, Event.stateSet CMD_STATE_READY]) ∧
    (∀ (env : OSEnv) (t : Terminal),
      ¬ (t.cmd_state = CMD_STATE_RUNNING ∧ t.current_process > 0) →
      (stop_current_command env t).1 =
        { t with history := t.history ++
            [{ text := "No command is currently running",
               line_type := HISTORY_TYPE_NORMAL, timestamp := env.now }] } ∧
      (stop_current_command env t).2 = [] ∧
      (stop_current_command env t).1.cmd_state = t.cmd_state ∧
      (stop_current_command env t).1.current_process = t.current_process ∧
      (stop_current_command env t).1.cmd_queue = t.cmd_queue) := by
  refine ⟨?_, ?_, ?_⟩
  · intro fuel env t
    simp only [executeCommandFuel]
    rw [if_pos trivial, if_neg (show ¬ ("stop".length = 0) from by decide)]
  · intro env t hrun hpid
    have hc : t.cmd_state = CMD_STATE_RUNNING ∧ t.current_process > 0 := ⟨hrun, hpid⟩
    simp only [stop_current_command, if_pos hc]
    refine ⟨by trivial, by trivial, by trivial, ?_, by trivial⟩
    exact add_history_line_of_collapse_eq _ _ _ _ _ (by decide)
  · intro env t hnot
    simp only [stop_current_command, if_neg hnot]
    refine ⟨?_, by trivial, by trivial, by trivial, by trivial⟩
    rw [add_history_line_of_collapse_eq _ _ _ _ _ (by decide)]

/-- Witness for C4 at a concrete running terminal (SIGINT branch) and a
concrete ready terminal (no-op branch). -/
theorem C4_stop_command_witness :
    runningTerm.cmd_state = CMD_STATE_RUNNING ∧ runningTerm.current_process > 0 ∧
    (stop_current_command baseEnv runningTerm).1.cmd_state = CMD_STATE_READY ∧
    ¬ (baseTerm.cmd_state = CMD_STATE_RUNNING ∧ baseTerm.current_process > 0) ∧
    (stop_current_command baseEnv baseTerm).2 = [] ∧
    executeCommandFuel 1 baseEnv "stop" runningTerm =
      stop_current_command baseEnv runningTerm :=
  ⟨by decide, by decide,
    (C4_stop_command.2.1 baseEnv runningTerm (by decide) (by decide)).1,
    by decide,
    (C4_stop_command.2.2 baseEnv baseTerm (by decide)).2.1,
    C4_stop_command.1 0 baseEnv runningTerm⟩

/-! ### C6: the cd special case -/

lemma recordCmdHistory_fields (t : Terminal) (cmd : String) :
    (recordCmdHistory t cmd).history = t.history ∧
    (recordCmdHistory t cmd).current_directory = t.current_directory ∧
    (recordCmdHistory t cmd).cmd_queue = t.cmd_queue ∧
    (recordCmdHistory t cmd).cmd_state = t.cmd_state ∧
    (recordCmdHistory t cmd).current_process = t.current_process := by
  unfold recordCmdHistory
  split <;> exact ⟨by trivial, by trivial, by trivial, by trivial, by trivial⟩

lemma cd_routing (fuel : Nat) (env : OSEnv) (cmd : String) (t : Terminal)
    (hnr : is_command_running t = false)
    (hcd : strncmpEq cmd "cd " 3 = true) :
    executeCommandFuel (fuel + 1) env cmd t = execCd env cmd (recordCmdHistory t cmd) := by
  have h3 : cmd.data.take 3 = "cd ".data := by
    simpa [strncmpEq] using hcd
  have hlen0 : ¬ cmd.length = 0 := by
    intro h
    have hd : cmd.data = [] := List.length_eq_zero.mp h
    rw [hd] at h3
    simp at h3
  have hstop : cmd ≠ "stop" := by
    intro h
    rw [h] at h3
    simp at h3
  have hman : cmd ≠ "manual" := by
    intro h
    rw [h] at h3
    simp at h3
  have hnrb : ¬ (is_command_running t = true) := by simp [hnr]
  simp only [executeCommandFuel, if_neg hlen0, if_neg hstop, if_neg hman, if_neg hnrb,
    if_pos hcd]

/-- Claim C6: submitting `cd <path>` while no command is running never
spawns a subprocess and never produces a timestamped command-echo
entry; when the directory change fails the stored working directory is
unchanged and exactly one error entry is appended, normal-classified
and starting with "cd: " (built from the resolved path and the OS
error text); when it succeeds the new OS working directory is
persisted into the session and nothing is logged. -/
theorem C6_cd_error_handling (fuel : Nat) (env : OSEnv) (cmd : String) (t : Terminal)
    (hnr : is_command_running t = false)
    (hcd : strncmpEq cmd "cd " 3 = true) :
    (env.chdirOk (cdResolve env.home (strSuffixFrom cmd 3)) = false →
      (executeCommandFuel (fuel + 1) env cmd t).1.current_directory =
        t.current_directory ∧
      (executeCommandFuel (fuel + 1) env cmd t).1.history =
        add_history_line env.line_break_enabled env.now t.history
          (cstrCopy 127 ("cd: " ++ cdResolve env.home (strSuffixFrom cmd 3) ++ ": " ++
            env.errnoStr (cdResolve env.home (strSuffixFrom cmd 3))))
          HISTORY_TYPE_NORMAL ∧
      ∃ e, (executeCommandFuel (fuel + 1) env cmd t).1.history = t.history ++ [e] ∧
        e.line_type = HISTORY_TYPE_NORMAL ∧ e.text.data.take 4 = "cd: ".data) ∧
    (env.chdirOk (cdResolve env.home (strSuffixFrom cmd 3)) = true →
      (executeCommandFuel (fuel + 1) env cmd t).1.current_directory =
        env.cwdAfter (cdResolve env.home (strSuffixFrom cmd 3)) ∧
      (executeCommandFuel (fuel + 1) env cmd t).1.history = t.history) ∧
    (executeCommandFuel (fuel + 1) env cmd t).2 =
      [Event.chdirCall (cdResolve env.home (strSuffixFrom cmd 3))] ∧
    (∀ e ∈ (executeCommandFuel (fuel + 1) env cmd t).1.history,
      e ∈ t.history ∨ e.line_type = HISTORY_TYPE_NORMAL) := by
  obtain ⟨hhist, hdir, -, -, -⟩ := recordCmdHistory_fields t cmd
  rw [cd_routing fuel env cmd t hnr hcd]
  set clean := cdResolve env.home (strSuffixFrom cmd 3) with hclean
  by_cases hok : env.chdirOk clean = true
  · simp only [execCd, if_pos hok]
    refine ⟨fun hc => absurd hok (by simp [hc]), fun _ => ⟨by trivial, hhist⟩, by trivial, ?_⟩
    intro e he
    rw [hhist] at he
    exact Or.inl he
  · have hokf : env.chdirOk clean = false := by
      cases h : env.chdirOk clean with
      | true => exact absurd h hok
      | false => rfl
    simp only [execCd, hokf, Bool.false_eq_true, if_false]
    have hmsg : ∀ b : Bool,
        (if b then cstrCopy 127 ("cd: " ++ clean ++ ": " ++ env.errnoStr clean)
         else collapseNewlines
           (cstrCopy 127 ("cd: " ++ clean ++ ": " ++ env.errnoStr clean))).data.take 4 =
          "cd: ".data := by
      intro b
      have hfst : ("cd: " ++ clean ++ ": " ++ env.errnoStr clean).data.take 4 =
          "cd: ".data := by
        have : ("cd: " ++ clean ++ ": " ++ env.errnoStr clean).data =
            "cd: ".data ++ (clean ++ ": " ++ env.errnoStr clean).data := by
          simp [String.data_append, String.append_assoc]
        rw [this]
        exact List.take_left' (by decide)
      cases b with
      | true =>
        simp only [if_pos trivial, cstrCopy, List.take_take]
        rw [show min 4 127 = 4 from rfl]
        exact hfst
      | false =>
        simp only [Bool.false_eq_true, if_false, collapseNewlines, cstrCopy]
        rw [List.map_take, List.take_take]
        norm_num
        decide
    refine ⟨fun _ => ⟨hdir, by rw [hhist], ?_⟩,
      fun hc => absurd hc (by simp [hokf]), by trivial, ?_⟩
    · exact ⟨_, by rw [hhist, add_history_line], by trivial, hmsg env.line_break_enabled⟩
    · intro e he
      rw [hhist] at he
      simp only [add_history_line, List.mem_append, List.mem_singleton] at he
      cases he with
      | inl h => exact Or.inl h
      | inr h => exact Or.inr (by rw [h])

/-- Witness for C6: with the fixture environment (whose chdir always
fails), submitting "cd /nope" to the ready fixture terminal leaves the
stored directory unchanged. -/
theorem C6_cd_error_handling_witness :
    is_command_running baseTerm = false ∧ strncmpEq "cd /nope" "cd " 3 = true ∧
    baseEnv.chdirOk (cdResolve baseEnv.home (strSuffixFrom "cd /nope" 3)) = false ∧
    (executeCommandFuel 1 baseEnv "cd /nope" baseTerm).1.current_directory =
      baseTerm.current_directory :=
  ⟨by decide, by decide, by decide,
    ((C6_cd_error_handling 0 baseEnv "cd /nope" baseTerm (by decide) (by decide)).1
      (by decide)).1⟩

/-! ### C8: interactive commands and the number they log

The interactive branch stores the raw return value of system() and
prints it in the "Command returned with exit code: %d" message when it
is nonzero.  system() reports the child's termination status in
waitpid() format, in which a normal exit with code 1 is encoded as
256; the child's numeric exit code is WEXITSTATUS of that status.  The
non-interactive branch of the same source function decodes its waitpid
status with WEXITSTATUS before logging; the interactive branch logs
the undecoded status. -/

def envC8 : OSEnv := { baseEnv with systemRet := fun _ => 256 }

/-- Claim C8 evaluated at the failing input: "vim" is classified
interactive; with a child that exits with code 1 (so system() returns
the waitpid-format status 256), the logged number is 256, whereas the
child's numeric exit code WEXITSTATUS(256) is 1.  The logging does
happen only for a nonzero result, and prefix matches such as
"vimdiff" are also classified interactive. -/
theorem C8_interactive_logs_wait_status :
    isInteractive "vim" = true ∧ isInteractive "vimdiff" = true ∧
    isInteractive "printf" = false ∧
    (executeCommandFuel 1 envC8 "vim" baseTerm).1.history.map
        (fun e => (e.text, e.line_type)) =
      [("[00:00:00] vim", HISTORY_TYPE_COMMAND),
       ("Starting interactive application...", HISTORY_TYPE_NORMAL),
       ("Note: Use Ctrl+Z to suspend and 'fg' to return", HISTORY_TYPE_NORMAL),
       ("Command returned with exit code: 256", HISTORY_TYPE_NORMAL),
       ("Returned to Parrot Terminal", HISTORY_TYPE_NORMAL)] ∧
    (executeCommandFuel 1 envC8 "vim" baseTerm).2 = [Event.systemCall "vim"] ∧
    (executeCommandFuel 1 baseEnv "vim" baseTerm).1.history.map
        (fun e => (e.text, e.line_type)) =
      [("[00:00:00] vim", HISTORY_TYPE_COMMAND),
       ("Starting interactive application...", HISTORY_TYPE_NORMAL),
       ("Note: Use Ctrl+Z to suspend and 'fg' to return", HISTORY_TYPE_NORMAL),
       ("Returned to Parrot Terminal", HISTORY_TYPE_NORMAL)] ∧
    wExitStatus 256 = 1 ∧ (256 : Nat) ≠ 1 := by
  refine ⟨by decide, by decide, by decide, by decide, by decide, by decide, by decide,
    by decide⟩

/-! ### Shared lemmas about the non-interactive execution path -/

/-- The timestamped command-echo append performed before spawning. -/
def echoAppended (env : OSEnv) (cmd : String) (t : Terminal) : Terminal :=
  { t with
      history := add_history_line env.line_break_enabled env.now t.history
        (cstrCopy 511 (env.timeStr ++ " " ++ cmd)) HISTORY_TYPE_COMMAND }

lemma appendHistoryLines_eq (env : OSEnv) (buf : List HistEntry)
    (ls : List String) (ty : Nat) :
    appendHistoryLines env buf ls ty = buf ++ ls.map (fun l =>
      { text := if env.line_break_enabled then l else collapseNewlines l,
        line_type := ty, timestamp := env.now }) := by
  induction ls generalizing buf with
  | nil => simp [appendHistoryLines]
  | cons l ls ih =>
    show appendHistoryLines env (add_history_line env.line_break_enabled env.now buf l ty)
        ls ty = _
    rw [ih, add_history_line]
    simp

lemma nonInteractiveRun_fields (env : OSEnv) (cmd : String) (t : Terminal) :
    (nonInteractiveRun env cmd t).cmd_state = CMD_STATE_READY ∧
    (nonInteractiveRun env cmd t).current_process = 0 ∧
    (nonInteractiveRun env cmd t).cmd_queue = t.cmd_queue ∧
    (nonInteractiveRun env cmd t).input = t.input ∧
    (nonInteractiveRun env cmd t).current_directory = t.current_directory := by
  refine ⟨?_, ?_, ?_, ?_, ?_⟩ <;>
    (unfold nonInteractiveRun; dsimp only; split) <;>
      first
        | rfl
        | (split <;> rfl)

lemma nonInteractiveRun_history_exit0 (env : OSEnv) (cmd : String) (t : Terminal)
    (hst : env.waitStatus cmd = 0) :
    (nonInteractiveRun env cmd t).history =
      t.history ++ (chunkOutputLines (env.readChunks cmd)).map (fun l =>
        { text := if env.line_break_enabled then l else collapseNewlines l,
          line_type := HISTORY_TYPE_NORMAL, timestamp := env.now }) := by
  unfold nonInteractiveRun
  rw [hst]
  rw [if_neg (by decide), if_neg (by decide)]
  exact appendHistoryLines_eq env t.history (chunkOutputLines (env.readChunks cmd))
    HISTORY_TYPE_NORMAL

/-- Routing of a plain (non-special, non-interactive) command with a
working pipe and fork: execute_command appends the timestamped echo,
runs the child capturing output, and finishes through
process_command_queue. -/
lemma noninteractive_routing (fuel : Nat) (env : OSEnv) (cmd : String) (t : Terminal)
    (hne : cmd ≠ "") (hstop : cmd ≠ "stop") (hman : cmd ≠ "manual")
    (hnr : is_command_running t = false)
    (hcd3 : strncmpEq cmd "cd " 3 = false) (hcd : cmd ≠ "cd")
    (hint : isInteractive cmd = false)
    (hpipe : env.pipeOk = true) (hfork : env.forkOk = true) :
    executeCommandFuel (fuel + 1) env cmd t =
      ((process_command_queue_fuel fuel env
          (nonInteractiveRun env cmd (echoAppended env cmd (recordCmdHistory t cmd)))).1,
       [Event.spawnShell cmd, Event.stateSet CMD_STATE_RUNNING,
        Event.stateSet CMD_STATE_READY] ++
         (process_command_queue_fuel fuel env
           (nonInteractiveRun env cmd (echoAppended env cmd (recordCmdHistory t cmd)))).2) := by
  have hlen0 : ¬ cmd.length = 0 := by
    intro h
    apply hne
    have hd : cmd.data = [] := List.length_eq_zero.mp h
    cases cmd
    subst hd
    rfl
  have hnrb : ¬ (is_command_running t = true) := by simp [hnr]
  have hcd3b : ¬ (strncmpEq cmd "cd " 3 = true) := by simp [hcd3]
  have hintb : ¬ (isInteractive cmd = true) := by simp [hint]
  have hpipeb : ¬ (¬ env.pipeOk = true) := by simp [hpipe]
  have hforkb : ¬ (¬ env.forkOk = true) := by simp [hfork]
  simp only [executeCommandFuel, if_neg hlen0, if_neg hstop, if_neg hman, if_neg hnrb,
    if_neg hcd3b, if_neg hcd, if_neg hintb, if_neg hpipeb, if_neg hforkb]
  rw [show ({ recordCmdHistory t cmd with
      history := add_history_line env.line_break_enabled env.now
        (recordCmdHistory t cmd).history (cstrCopy 511 (env.timeStr ++ " " ++ cmd))
        HISTORY_TYPE_COMMAND } : Terminal) = echoAppended env cmd (recordCmdHistory t cmd)
    from rfl]
  rcases hpq : process_command_queue_fuel fuel env
      (nonInteractiveRun env cmd (echoAppended env cmd (recordCmdHistory t cmd)))
    with ⟨a, b⟩
  rw [process_command_queue_fuel] at hpq
  rw [hpq]

lemma process_command_queue_empty (fuel : Nat) (env : OSEnv) (t : Terminal)
    (hq : is_queue_empty t.cmd_queue = true) :
    process_command_queue_fuel fuel env t = (t, []) := by
  unfold process_command_queue_fuel
  rw [hq]
  simp

lemma get_from_queue_eq (q : CommandQueue) (hne : is_queue_empty q = false) :
    get_from_queue q =
      (some (cstrCopy (MAX_CMD_INPUT - 1) (q.commands.getD q.head "")),
        update_queue_state
          { q with
              head := (q.head + 1) % COMMAND_QUEUE_SIZE
              count := q.count - 1 }) := by
  unfold get_from_queue
  rw [hne]
  simp

lemma get_from_queue_normal (q : CommandQueue) (hne : is_queue_empty q = false)
    (hcnt : q.count ≤ COMMAND_QUEUE_SIZE) :
    (get_from_queue q).2.state = QUEUE_NORMAL ∧
    (get_from_queue q).2.count = q.count - 1 := by
  have h0 : q.count ≠ 0 := by simpa [is_queue_empty] using hne
  rw [get_from_queue_eq q hne]
  unfold update_queue_state
  dsimp only
  simp only [COMMAND_QUEUE_SIZE] at hcnt ⊢
  refine ⟨?_, by trivial⟩
  rw [if_neg (by omega)]

/-- Draining one entry: with no command running and a non-empty queue,
process_command_queue dequeues exactly one entry, always clears the
input lock (the dequeue leaves at most nine entries, so the state is
Normal), and re-enters execute_command on the dequeued text. -/
lemma process_command_queue_drain (fuel : Nat) (env : OSEnv) (t : Terminal)
    (hnr : is_command_running t = false) (hne : is_queue_empty t.cmd_queue = false)
    (hcnt : t.cmd_queue.count ≤ COMMAND_QUEUE_SIZE) :
    process_command_queue_fuel fuel env t =
      executeCommandFuel fuel env
        (cstrCopy (MAX_CMD_INPUT - 1) (t.cmd_queue.commands.getD t.cmd_queue.head ""))
        { t with cmd_queue := (get_from_queue t.cmd_queue).2,
                 input := { t.input with is_locked := false } } := by
  obtain ⟨hstate, -⟩ := get_from_queue_normal t.cmd_queue hne hcnt
  unfold process_command_queue_fuel
  have hcond : (!is_command_running t && !is_queue_empty t.cmd_queue) = true := by
    rw [hnr, hne]
    rfl
  rw [if_pos hcond, get_from_queue_eq t.cmd_queue hne]
  rw [get_from_queue_eq t.cmd_queue hne] at hstate
  dsimp only at hstate ⊢
  rw [if_pos hstate]

/-! ### C3: post-wait bookkeeping and queue drain -/

/-- Claim C3: after a non-interactive command's pipe closes and the
child has been waited on, the session status is Ready and the recorded
process id cleared (the queue untouched by the run itself);
execute_command then re-enters via process_command_queue, which with an
empty queue does nothing, and otherwise drains exactly one entry — the
queue state after that dequeue is necessarily Normal (the count drops
to at most nine), so the input lock flag is cleared — and executes the
dequeued command through the same execute_command procedure. -/
theorem C3_ready_then_drain :
    (∀ (env : OSEnv) (cmd : String) (t : Terminal),
      (nonInteractiveRun env cmd t).cmd_state = CMD_STATE_READY ∧
      (nonInteractiveRun env cmd t).current_process = 0 ∧
      (nonInteractiveRun env cmd t).cmd_queue = t.cmd_queue) ∧
    (∀ (fuel : Nat) (env : OSEnv) (cmd : String) (t : Terminal),
      cmd ≠ "" → cmd ≠ "stop" → cmd ≠ "manual" → is_command_running t = false →
      strncmpEq cmd "cd " 3 = false → cmd ≠ "cd" → isInteractive cmd = false →
      env.pipeOk = true → env.forkOk = true →
      executeCommandFuel (fuel + 1) env cmd t =
        ((process_command_queue_fuel fuel env
            (nonInteractiveRun env cmd (echoAppended env cmd (recordCmdHistory t cmd)))).1,
         [Event.spawnShell cmd, Event.stateSet CMD_STATE_RUNNING,
          Event.stateSet CMD_STATE_READY] ++
           (process_command_queue_fuel fuel env
             (nonInteractiveRun env cmd (echoAppended env cmd (recordCmdHistory t cmd)))).2)) ∧
    (∀ (fuel : Nat) (env : OSEnv) (t : Terminal),
      is_queue_empty t.cmd_queue = true →
      process_command_queue_fuel fuel env t = (t, [])) ∧
    (∀ (fuel : Nat) (env : OSEnv) (t : Terminal),
      is_command_running t = false → is_queue_empty t.cmd_queue = false →
      t.cmd_queue.count ≤ COMMAND_QUEUE_SIZE →
      (get_from_queue t.cmd_queue).2.count = t.cmd_queue.count - 1 ∧
      (get_from_queue t.cmd_queue).2.state = QUEUE_NORMAL ∧
      process_command_queue_fuel fuel env t =
        executeCommandFuel fuel env
          (cstrCopy (MAX_CMD_INPUT - 1) (t.cmd_queue.commands.getD t.cmd_queue.head ""))
          { t with cmd_queue := (get_from_queue t.cmd_queue).2,
                   input := { t.input with is_locked := false } }) :=
  ⟨fun env cmd t => ⟨(nonInteractiveRun_fields env cmd t).1,
      (nonInteractiveRun_fields env cmd t).2.1,
      (nonInteractiveRun_fields env cmd t).2.2.1⟩,
   fun fuel env cmd t h1 h2 h3 h4 h5 h6 h7 h8 h9 =>
     noninteractive_routing fuel env cmd t h1 h2 h3 h4 h5 h6 h7 h8 h9,
   fun fuel env t hq => process_command_queue_empty fuel env t hq,
   fun fuel env t hnr hne hcnt =>
     ⟨(get_from_queue_normal t.cmd_queue hne hcnt).2,
      (get_from_queue_normal t.cmd_queue hne hcnt).1,
      process_command_queue_drain fuel env t hnr hne hcnt⟩⟩

def queuedTerm : Terminal :=
  { baseTerm with cmd_queue := (add_to_queue init_command_queue "ls").2 }

/-- Witness for C3's drain clause at a concrete ready terminal holding
one queued command. -/
theorem C3_ready_then_drain_witness :
    is_command_running queuedTerm = false ∧
    is_queue_empty queuedTerm.cmd_queue = false ∧
    queuedTerm.cmd_queue.count ≤ COMMAND_QUEUE_SIZE ∧
    process_command_queue_fuel 1 baseEnv queuedTerm =
      executeCommandFuel 1 baseEnv
        (cstrCopy (MAX_CMD_INPUT - 1)
          (queuedTerm.cmd_queue.commands.getD queuedTerm.cmd_queue.head ""))
        { queuedTerm with cmd_queue := (get_from_queue queuedTerm.cmd_queue).2,
                          input := { queuedTerm.input with is_locked := false } } :=
  ⟨by decide, by decide, by decide,
    (C3_ready_then_drain.2.2.2 1 baseEnv queuedTerm (by decide) (by decide)
      (by decide)).2.2⟩

/-! ### C7: the output-capture pipeline -/

lemma splitNl_cons (c : Char) (rest : List Char) :
    splitNl (c :: rest) =
      match splitNl rest with
      | [] => [[]]
      | piece :: pieces =>
        if c = '\n' then [] :: piece :: pieces else (c :: piece) :: pieces := rfl

lemma splitNl_ne_nil (l : List Char) : splitNl l ≠ [] := by
  cases l with
  | nil => simp [splitNl]
  | cons c rest =>
    rw [splitNl_cons]
    cases h : splitNl rest with
    | nil => simp
    | cons p ps =>
      by_cases hc : c = '\n' <;> simp [hc]

/-- A run of characters without a newline is flushed as a single
piece: the claim's "trailing partial line flushed as-is". -/
lemma splitNl_no_newline (a : List Char) (h : '\n' ∉ a) : splitNl a = [a] := by
  induction a with
  | nil => rfl
  | cons c rest ih =>
    have hc : c ≠ '\n' := fun hh => h (hh ▸ List.mem_cons_self c rest)
    have hr : '\n' ∉ rest := fun hh => h (List.mem_cons_of_mem c hh)
    rw [splitNl_cons, ih hr]
    simp [hc]

/-- Splitting happens exactly at newline boundaries. -/
lemma splitNl_append_newline (a b : List Char) (h : '\n' ∉ a) :
    splitNl (a ++ '\n' :: b) = a :: splitNl b := by
  induction a with
  | nil =>
    show splitNl ('\n' :: b) = [] :: splitNl b
    rw [splitNl_cons]
    cases hsb : splitNl b with
    | nil => exact absurd hsb (splitNl_ne_nil b)
    | cons p ps => simp
  | cons c rest ih =>
    have hc : c ≠ '\n' := fun hh => h (hh ▸ List.mem_cons_self c rest)
    have hr : '\n' ∉ rest := fun hh => h (List.mem_cons_of_mem c hh)
    show splitNl (c :: (rest ++ '\n' :: b)) = (c :: rest) :: splitNl b
    rw [splitNl_cons, ih hr]
    simp [hc]

/-- Claim C7's splitting rule as the spec words it: the arriving bytes
are split on newline boundaries, every resulting line (empty ones
included) is stripped of escape sequences and appended, and a trailing
partial line with no terminating newline is flushed as-is (equivalently
the trailing empty piece left by a final newline is not a line). -/
def specNewlineSplit (s : String) : List String :=
  let parts := (splitNl s.data).map String.mk
  (if parts.getLast? = some "" then parts.dropLast else parts).map strip_escape_codes

def envC7 : OSEnv :=
  { baseEnv with readChunks := fun c =>
      if c = "printf 'a\n\nb\n'" then ["a\n\nb\n"]
      else if c = "echo hello" then ["hello\n"] else [] }

/-- Counterexample to claim C7 as stated: on the single-chunk stream
"a\n\nb\n" the code appends two lines "a", "b" (strtok drops the empty
line), while splitting the stream on newline boundaries yields the
three lines "a", "", "b"; running a command producing that stream
indeed logs only two normal-output entries. -/
theorem C7_empty_line_counterexample :
    chunkOutputLines ["a\n\nb\n"] = ["a", "b"] ∧
    specNewlineSplit "a\n\nb\n" = ["a", "", "b"] ∧
    chunkOutputLines ["a\n\nb\n"] ≠ specNewlineSplit "a\n\nb\n" ∧
    (executeCommandFuel 1 envC7 "printf 'a\n\nb\n'" baseTerm).1.history.map
        (fun e => (e.text, e.line_type)) =
      [("[00:00:00] printf 'a\n\nb\n'", HISTORY_TYPE_COMMAND),
       ("a", HISTORY_TYPE_NORMAL), ("b", HISTORY_TYPE_NORMAL)] := by
  refine ⟨by decide, by decide, by decide, by decide⟩

/-- Claim C7 amended: each read chunk is tokenised at newline runs —
empty lines are discarded and a partial line at the end of a chunk (in
particular at end-of-stream) is flushed as-is — each token is stripped
of ANSI escapes and appended as a normal-output History Log entry;
splitNl splits exactly at newline boundaries; and `echo hello`
produces exactly one output line "hello" classified as normal output
with status transitioning Ready→Running→Ready. -/
theorem C7_amended_output_pipeline :
    (∀ (fuel : Nat) (env : OSEnv) (cmd : String) (t : Terminal),
      cmd ≠ "" → cmd ≠ "stop" → cmd ≠ "manual" → is_command_running t = false →
      strncmpEq cmd "cd " 3 = false → cmd ≠ "cd" → isInteractive cmd = false →
      env.pipeOk = true → env.forkOk = true → is_queue_empty t.cmd_queue = true →
      env.waitStatus cmd = 0 → env.line_break_enabled = true →
      (executeCommandFuel (fuel + 1) env cmd t).1.history =
        t.history ++
          ({ text := cstrCopy 511 (env.timeStr ++ " " ++ cmd),
             line_type := HISTORY_TYPE_COMMAND, timestamp := env.now } ::
           (chunkOutputLines (env.readChunks cmd)).map (fun l =>
             { text := l, line_type := HISTORY_TYPE_NORMAL, timestamp := env.now })) ∧
      (executeCommandFuel (fuel + 1) env cmd t).1.cmd_state = CMD_STATE_READY ∧
      (executeCommandFuel (fuel + 1) env cmd t).2 =
        [Event.spawnShell cmd, Event.stateSet CMD_STATE_RUNNING,
         Event.stateSet CMD_STATE_READY]) ∧
    (∀ a b : List Char, '\n' ∉ a → splitNl (a ++ '\n' :: b) = a :: splitNl b) ∧
    (∀ a : List Char, '\n' ∉ a → splitNl a = [a]) ∧
    (∀ chunks : List String, chunkOutputLines chunks =
      (chunks.map (fun c => (strtokNewlines c).map
        (fun l => strip_escape_codes (cstrCopy 1023 l)))).flatten) ∧
    ((executeCommandFuel 1 envC7 "echo hello" baseTerm).1.history.map
        (fun e => (e.text, e.line_type)) =
      [("[00:00:00] echo hello", HISTORY_TYPE_COMMAND),
       ("hello", HISTORY_TYPE_NORMAL)] ∧
     baseTerm.cmd_state = CMD_STATE_READY ∧
     (executeCommandFuel 1 envC7 "echo hello" baseTerm).1.cmd_state = CMD_STATE_READY ∧
     (executeCommandFuel 1 envC7 "echo hello" baseTerm).2 =
       [Event.spawnShell "echo hello", Event.stateSet CMD_STATE_RUNNING,
        Event.stateSet CMD_STATE_READY]) := by
  refine ⟨?_, splitNl_append_newline, splitNl_no_newline, fun chunks => rfl,
    by decide, by decide, by decide, by decide⟩
  intro fuel env cmd t h1 h2 h3 h4 h5 h6 h7 h8 h9 hq hst hlb
  have hroute := noninteractive_routing fuel env cmd t h1 h2 h3 h4 h5 h6 h7 h8 h9
  have hq3 : (nonInteractiveRun env cmd
      (echoAppended env cmd (recordCmdHistory t cmd))).cmd_queue = t.cmd_queue := by
    rw [(nonInteractiveRun_fields env cmd _).2.2.1]
    rw [show (echoAppended env cmd (recordCmdHistory t cmd)).cmd_queue =
      (recordCmdHistory t cmd).cmd_queue from rfl]
    exact (recordCmdHistory_fields t cmd).2.2.1
  have hpcq : process_command_queue_fuel fuel env
      (nonInteractiveRun env cmd (echoAppended env cmd (recordCmdHistory t cmd))) =
      (nonInteractiveRun env cmd (echoAppended env cmd (recordCmdHistory t cmd)), []) :=
    process_command_queue_empty fuel env _ (by rw [hq3]; exact hq)
  rw [hroute, hpcq]
  refine ⟨?_, (nonInteractiveRun_fields env cmd _).1, by simp⟩
  show (nonInteractiveRun env cmd (echoAppended env cmd (recordCmdHistory t cmd))).history = _
  rw [nonInteractiveRun_history_exit0 env cmd _ hst]
  rw [show (echoAppended env cmd (recordCmdHistory t cmd)).history =
    add_history_line env.line_break_enabled env.now (recordCmdHistory t cmd).history
      (cstrCopy 511 (env.timeStr ++ " " ++ cmd)) HISTORY_TYPE_COMMAND from rfl]
  rw [(recordCmdHistory_fields t cmd).1, hlb, add_history_line]
  simp

/-- Witness for the execution clause of the amended C7 at the concrete
echo-hello input. -/
theorem C7_amended_output_pipeline_witness :
    envC7.pipeOk = true ∧ is_queue_empty baseTerm.cmd_queue = true ∧
    envC7.waitStatus "echo hello" = 0 ∧ envC7.line_break_enabled = true ∧
    (executeCommandFuel 1 envC7 "echo hello" baseTerm).1.history =
      baseTerm.history ++
        ({ text := cstrCopy 511 (envC7.timeStr ++ " " ++ "echo hello"),
           line_type := HISTORY_TYPE_COMMAND, timestamp := envC7.now } ::
         (chunkOutputLines (envC7.readChunks "echo hello")).map (fun l =>
           { text := l, line_type := HISTORY_TYPE_NORMAL, timestamp := envC7.now })) :=
  ⟨by decide, by decide, by decide, by decide,
    (C7_amended_output_pipeline.1 0 envC7 "echo hello" baseTerm (by decide) (by decide)
      (by decide) (by decide) (by decide) (by decide) (by decide) (by decide) (by decide)
      (by decide) (by decide) (by decide)).1⟩

/-! ### C5: closing the active session

struct TerminalManager holds the session array, its count and the
active index.  close_current_terminal is a no-op with at most one
session; otherwise it interrupts a running command on the active
session, clears the active session's partner's back-reference, shifts
the array left over the removed slot renumbering ids and decrementing
those partner references of shifted sessions that point above the
removed index, decrements the count and clamps the active index.
(The C code indexes the partner slot without a bounds check; List.set
out of range is a no-op, which is only exercised here on well-formed
managers whose partner references are in range.) -/

structure TerminalManager where
  terminals : List Terminal
  terminal_count : Nat
  active_terminal : Nat
deriving DecidableEq

/-- The left-shift loop of close_current_terminal: sessions before the
removed index stay, later ones move down one slot, get their id set to
the new index, and have their partner reference decremented when it
points above the removed index. -/
def closeShift (ts : List Terminal) (active_id n : Nat) : List Terminal :=
  (List.range (n - 1)).map (fun i =>
    if i < active_id then ts.getD i baseTerm
    else
      let tm := { (ts.getD (i + 1) baseTerm) with id := i }
      if tm.split_with > (active_id : Int) then { tm with split_with := tm.split_with - 1 }
      else tm)

def close_current_terminal (env : OSEnv) (m : TerminalManager) :
    TerminalManager × List Event :=
  if m.terminal_count ≤ 1 then (m, [])
  else
    let active_id := m.active_terminal
    let (ts0, evs) :=
      if (m.terminals.getD active_id baseTerm).cmd_state = CMD_STATE_RUNNING then
        let (t', e) := stop_current_command env (m.terminals.getD active_id baseTerm)
        (m.terminals.set active_id t', e)
      else (m.terminals, [])
    let sw := (ts0.getD active_id baseTerm).split_with
    let ts1 :=
      if sw ≠ -1 then
        ts0.set sw.toNat { (ts0.getD sw.toNat baseTerm) with split_with := -1 }
      else ts0
    ({ terminals := closeShift ts1 active_id m.terminal_count
       terminal_count := m.terminal_count - 1
       active_terminal :=
         if m.active_terminal ≥ m.terminal_count - 1 then m.terminal_count - 1 - 1
         else m.active_terminal }, evs)

def mkTerm (i : Nat) (sw : Int) : Terminal :=
  { baseTerm with id := i, split_with := sw }

/-- Four sessions paired 0↔3 and 1↔2, with session 2 active. -/
def mgr4 : TerminalManager :=
  { terminals := [mkTerm 0 3, mkTerm 1 2, mkTerm 2 1, mkTerm 3 0]
    terminal_count := 4, active_terminal := 2 }

/-- Counterexample to claim C5 as stated: closing session 2 of mgr4
(partners 0↔3 and 1↔2).  Session 3 has original index greater than the
removed one and partner reference 0, yet its reference is not
decremented (it stays 0, pointing below the removed index); dually,
session 0's reference to index 3 — an index greater than the removed
one — is not renumbered either and is left dangling at 3 in a
three-session manager.  Count, ids and clamping behave as claimed. -/
theorem C5_close_active_counterexample :
    mgr4.active_terminal = 2 ∧ mgr4.terminal_count = 4 ∧
    (mgr4.terminals.getD 3 baseTerm).split_with = 0 ∧
    (mgr4.terminals.getD 3 baseTerm).split_with ≠ -1 ∧
    ((close_current_terminal baseEnv mgr4).1.terminals.getD 2 baseTerm).split_with = 0 ∧
    ((close_current_terminal baseEnv mgr4).1.terminals.getD 2 baseTerm).split_with ≠
      (mgr4.terminals.getD 3 baseTerm).split_with - 1 ∧
    (mgr4.terminals.getD 0 baseTerm).split_with = 3 ∧
    ((close_current_terminal baseEnv mgr4).1.terminals.getD 0 baseTerm).split_with = 3 ∧
    (close_current_terminal baseEnv mgr4).1.terminal_count = 3 := by
  refine ⟨by decide, by decide, by decide, by decide, by decide, by decide, by decide,
    by decide, by decide⟩

lemma getD_set_of_ne {α : Type} (l : List α) (k i : Nat) (x d : α) (h : k ≠ i) :
    (l.set k x).getD i d = l.getD i d := by
  simp [List.getD_eq_getElem?_getD, List.getElem?_set_ne h]

lemma getD_set_of_eq {α : Type} (l : List α) (k : Nat) (x d : α) (h : k < l.length) :
    (l.set k x).getD k d = x := by
  simp [List.getD_eq_getElem?_getD, List.getElem?_set_self, h]

lemma getD_closeShift (ts : List Terminal) (a n i : Nat) (h : i < n - 1) :
    (closeShift ts a n).getD i baseTerm =
      if i < a then ts.getD i baseTerm
      else
        (let tm := { (ts.getD (i + 1) baseTerm) with id := i };
         if tm.split_with > (a : Int) then { tm with split_with := tm.split_with - 1 }
         else tm) := by
  unfold closeShift
  simp [List.getD_eq_getElem?_getD, List.getElem?_map, List.getElem?_range, h]

lemma close_current_terminal_eq (env : OSEnv) (m : TerminalManager)
    (hN : ¬ m.terminal_count ≤ 1)
    (hnr : ¬ ((m.terminals.getD m.active_terminal baseTerm).cmd_state =
      CMD_STATE_RUNNING)) :
    close_current_terminal env m =
      ({ terminals := closeShift
            (if (m.terminals.getD m.active_terminal baseTerm).split_with ≠ -1 then
              m.terminals.set
                (m.terminals.getD m.active_terminal baseTerm).split_with.toNat
                { (m.terminals.getD
                    (m.terminals.getD m.active_terminal baseTerm).split_with.toNat
                    baseTerm) with split_with := -1 }
             else m.terminals)
            m.active_terminal m.terminal_count
         terminal_count := m.terminal_count - 1
         active_terminal :=
           if m.active_terminal ≥ m.terminal_count - 1 then m.terminal_count - 1 - 1
           else m.active_terminal }, []) := by
  unfold close_current_terminal
  rw [if_neg hN]
  dsimp only
  rw [if_neg hnr]

/-- Claim C5 amended: with at most one session closeActive is a no-op.
On N ≥ 2 well-formed sessions, closing the active one interrupts
nothing when it is not Running, clears the closed session's partner's
back-reference, leaves N-1 sessions with contiguous ids 0..N-2, and —
for the shifted sessions, those with original index greater than the
removed one — decrements by one exactly those partner references that
pointed to an index greater than the removed one, while references
pointing below the removed index, and all references held by sessions
before the removed index, are left unchanged (apart from the cleared
back-reference); the active index is clamped to the last valid index
when it would exceed the new count. -/
theorem C5_close_active_amended (env : OSEnv) (m : TerminalManager)
    (hcnt : m.terminal_count = m.terminals.length)
    (hact : m.active_terminal < m.terminal_count)
    (hN : 2 ≤ m.terminal_count)
    (hids : ∀ i, i < m.terminals.length → (m.terminals.getD i baseTerm).id = i)
    (hnr : ¬ ((m.terminals.getD m.active_terminal baseTerm).cmd_state =
      CMD_STATE_RUNNING))
    (hswa : (m.terminals.getD m.active_terminal baseTerm).split_with ≠ -1 →
      0 ≤ (m.terminals.getD m.active_terminal baseTerm).split_with ∧
      (m.terminals.getD m.active_terminal baseTerm).split_with.toNat <
        m.terminals.length ∧
      (m.terminals.getD m.active_terminal baseTerm).split_with ≠
        (m.active_terminal : Int)) :
    (∀ m0 : TerminalManager, m0.terminal_count ≤ 1 →
      close_current_terminal env m0 = (m0, [])) ∧
    (close_current_terminal env m).1.terminal_count = m.terminal_count - 1 ∧
    (close_current_terminal env m).1.terminals.length = m.terminal_count - 1 ∧
    (∀ i, i < m.terminal_count - 1 →
      ((close_current_terminal env m).1.terminals.getD i baseTerm).id = i) ∧
    ((m.terminals.getD m.active_terminal baseTerm).split_with ≠ -1 →
      ((close_current_terminal env m).1.terminals.getD
        (if (m.terminals.getD m.active_terminal baseTerm).split_with.toNat <
            m.active_terminal
         then (m.terminals.getD m.active_terminal baseTerm).split_with.toNat
         else (m.terminals.getD m.active_terminal baseTerm).split_with.toNat - 1)
        baseTerm).split_with = -1) ∧
    (∀ j, m.active_terminal < j → j < m.terminal_count →
      ((close_current_terminal env m).1.terminals.getD (j - 1) baseTerm).split_with =
        (if ((m.terminals.getD m.active_terminal baseTerm).split_with ≠ -1 ∧
             j = (m.terminals.getD m.active_terminal baseTerm).split_with.toNat)
         then (-1 : Int)
         else if (m.terminals.getD j baseTerm).split_with > (m.active_terminal : Int)
         then (m.terminals.getD j baseTerm).split_with - 1
         else (m.terminals.getD j baseTerm).split_with)) ∧
    (∀ j, j < m.active_terminal →
      ((close_current_terminal env m).1.terminals.getD j baseTerm).split_with =
        (if ((m.terminals.getD m.active_terminal baseTerm).split_with ≠ -1 ∧
             j = (m.terminals.getD m.active_terminal baseTerm).split_with.toNat)
         then (-1 : Int)
         else (m.terminals.getD j baseTerm).split_with)) ∧
    (close_current_terminal env m).1.active_terminal =
      (if m.active_terminal ≥ m.terminal_count - 1 then m.terminal_count - 1 - 1
       else m.active_terminal) := by
  have hN1 : ¬ m.terminal_count ≤ 1 := by omega
  have hlen : m.terminals.length = m.terminal_count := hcnt.symm
  rw [close_current_terminal_eq env m hN1 hnr]
  set swa := (m.terminals.getD m.active_terminal baseTerm).split_with with hswadef
  set a := m.active_terminal with hadef
  set n := m.terminal_count with hndef
  set ts1 := (if swa ≠ -1 then
      m.terminals.set swa.toNat
        { (m.terminals.getD swa.toNat baseTerm) with split_with := -1 }
    else m.terminals) with hts1def
  have hts1len : ts1.length = m.terminals.length := by
    rw [hts1def]
    split <;> simp
  have hts1getD : ∀ j, ts1.getD j baseTerm =
      (if swa ≠ -1 ∧ j = swa.toNat then
        { (m.terminals.getD j baseTerm) with split_with := -1 }
       else m.terminals.getD j baseTerm) := by
    intro j
    rw [hts1def]
    by_cases hsw : swa = -1
    · rw [if_neg (not_not_intro hsw), if_neg (by simp [hsw])]
    · rw [if_pos hsw]
      by_cases hj : j = swa.toNat
      · subst hj
        rw [getD_set_of_eq _ _ _ _ (by rw [hlen]; exact ((hswa hsw).2.1.trans_eq hcnt.symm))]
        rw [if_pos ⟨hsw, rfl⟩]
      · rw [getD_set_of_ne _ _ _ _ _ (fun hh => hj hh.symm), if_neg (by simp [hj])]
  refine ⟨?_, rfl, by simp [closeShift], ?_, ?_, ?_, ?_, rfl⟩
  · intro m0 h0
    unfold close_current_terminal
    rw [if_pos h0]
  · -- contiguous ids
    intro i hi
    show ((closeShift ts1 a n).getD i baseTerm).id = i
    rw [getD_closeShift ts1 a n i hi]
    by_cases hia : i < a
    · rw [if_pos hia, hts1getD i]
      by_cases hcl : swa ≠ -1 ∧ i = swa.toNat
      · rw [if_pos hcl]
        show (m.terminals.getD i baseTerm).id = i
        exact hids i (by omega)
      · rw [if_neg hcl]
        exact hids i (by omega)
    · rw [if_neg hia]
      dsimp only
      split <;> rfl
  · -- partner back-reference cleared
    intro hsw
    obtain ⟨hpos, hklen, hkne⟩ := hswa hsw
    have hkcast : ((swa.toNat : Int)) = swa := Int.toNat_of_nonneg hpos
    have hkna : swa.toNat ≠ a := by
      intro hh
      apply hkne
      rw [← hkcast, hh]
    have hkn : swa.toNat < n := by
      rw [hcnt]
      exact hklen
    have hclk : swa ≠ -1 ∧ swa.toNat = swa.toNat := ⟨hsw, rfl⟩
    by_cases hka : swa.toNat < a
    · rw [if_pos hka]
      show ((closeShift ts1 a n).getD swa.toNat baseTerm).split_with = -1
      have hb : swa.toNat < n - 1 := by omega
      rw [getD_closeShift ts1 a n swa.toNat hb, if_pos hka, hts1getD swa.toNat,
        if_pos hclk]
    · have hka' : a < swa.toNat := by omega
      rw [if_neg hka]
      show ((closeShift ts1 a n).getD (swa.toNat - 1) baseTerm).split_with = -1
      have hb : swa.toNat - 1 < n - 1 := by omega
      have hb2 : ¬ (swa.toNat - 1 < a) := by omega
      rw [getD_closeShift ts1 a n (swa.toNat - 1) hb, if_neg hb2]
      dsimp only
      have h1 : swa.toNat - 1 + 1 = swa.toNat := by omega
      rw [h1, hts1getD swa.toNat, if_pos hclk]
      have hneg : ¬ (({ (m.terminals.getD swa.toNat baseTerm) with
          split_with := (-1 : Int) } : Terminal).split_with > (a : Int)) := by
        show ¬ ((-1 : Int) > (a : Int))
        omega
      rw [if_neg hneg]
  · -- shifted sessions: decrement exactly the references above the removed index
    intro j hja hjn
    show ((closeShift ts1 a n).getD (j - 1) baseTerm).split_with = _
    have hb : j - 1 < n - 1 := by omega
    have hb2 : ¬ (j - 1 < a) := by omega
    rw [getD_closeShift ts1 a n (j - 1) hb, if_neg hb2]
    dsimp only
    have h1 : j - 1 + 1 = j := by omega
    rw [h1, hts1getD j]
    by_cases hcl : swa ≠ -1 ∧ j = swa.toNat
    · rw [if_pos hcl, if_pos hcl]
      have hneg : ¬ (({ (m.terminals.getD j baseTerm) with
          split_with := (-1 : Int) } : Terminal).split_with > (a : Int)) := by
        show ¬ ((-1 : Int) > (a : Int))
        omega
      rw [if_neg hneg]
    · rw [if_neg hcl, if_neg hcl]
      by_cases hgt : (m.terminals.getD j baseTerm).split_with > (a : Int)
      · rw [if_pos hgt, if_pos hgt]
      · rw [if_neg hgt, if_neg hgt]
  · -- sessions before the removed index keep their references
    intro j hja
    show ((closeShift ts1 a n).getD j baseTerm).split_with = _
    rw [getD_closeShift ts1 a n j (by omega), if_pos hja, hts1getD j]
    by_cases hcl : swa ≠ -1 ∧ j = swa.toNat
    · rw [if_pos hcl, if_pos hcl]
    · rw [if_neg hcl, if_neg hcl]

/-- Witness for the amended C5 at the concrete four-session manager. -/
theorem C5_close_active_amended_witness :
    mgr4.terminal_count = mgr4.terminals.length ∧
    mgr4.active_terminal < mgr4.terminal_count ∧ 2 ≤ mgr4.terminal_count ∧
    (close_current_terminal baseEnv mgr4).1.terminal_count = mgr4.terminal_count - 1 :=
  ⟨by decide, by decide, by decide,
    (C5_close_active_amended baseEnv mgr4 (by decide) (by decide) (by decide)
      (fun i hi => by
        have h4 : i < 4 := by simpa [mgr4] using hi
        interval_cases i <;> decide)
      (by decide) (by decide)).2.1⟩

end Parrot
